import Mathlib

/-!
Verification of the savings-estimation and recommendation engine of the
multi-cloud cost optimizer (Lambda ingestion handler).

The embedding models the pure core of `src/lambda/cost_ingestion/handler.py`
(`calculate_potential_savings`, `generate_recommendations`, the report
summary built in `lambda_handler`) and of
`src/lambda/cost_ingestion/utils/cost_explorer.py` (`get_cost_trends`).

Modelling conventions:
- Python floats are modelled as exact rationals (ℚ); `round(x, 2)` is
  modelled as round-half-to-even at two decimal places on ℚ, idealizing
  binary floating point by exact decimal arithmetic.
- A scanned resource record is a flat dictionary whose pricing-relevant
  keys may be absent; it is modelled as a structure of `Option` fields
  (`none` = key absent), and `dict.get(k, d)` becomes `Option.getD`.
- The inventory always carries the five fixed category keys (the resource
  scanner emits all of them, with empty lists when nothing is found), so
  it is a structure of five lists; Python truthiness of a list is
  emptiness.
- The service-cost mapping is an insertion-ordered association list, and
  Python's stable `sorted(..., reverse=True)` is a stable descending
  insertion sort.
- `get_cost_trends` wraps its body in a broad `except` returning a partial
  dictionary; the upstream fetch of the prior-period total is modelled as
  an `Except` argument and the two possible return shapes as a sum type.
-/

namespace CostOptimizer

/-- A resource record from the inventory scanner: a flat dictionary whose
pricing-relevant keys (`type`, `size`, `instance_class`, `storage`) may be
absent. -/
structure ResourceRecord where
  type : Option String := none
  size : Option Nat := none
  instance_class : Option String := none
  storage : Option Nat := none
deriving DecidableEq

/-- The idle-resource inventory: the five fixed categories produced by
`ResourceScanner.scan_all_resources`, each an ordered list of records. -/
structure IdleResourceInventory where
  ec2_stopped : List ResourceRecord
  ebs_unattached : List ResourceRecord
  eip_unassociated : List ResourceRecord
  rds_stopped : List ResourceRecord
  elb_unused : List ResourceRecord
deriving DecidableEq

/-- `idle_resources.values()`: the five category lists, in key order. -/
def IdleResourceInventory.values (inv : IdleResourceInventory) :
    List (List ResourceRecord) :=
  [inv.ec2_stopped, inv.ebs_unattached, inv.eip_unassociated,
   inv.rds_stopped, inv.elb_unused]

/-- `ec2_pricing.get(instance_type, 30.0)`: monthly price per stopped EC2
instance by type (eu-west-1), with fallback 30.0. -/
def ec2_pricing (instance_type : String) : ℚ :=
  if instance_type = "t3.micro" then 10.0
  else if instance_type = "t3.small" then 15.0
  else if instance_type = "t3.medium" then 30.0
  else if instance_type = "t3.large" then 60.0
  else if instance_type = "t3.xlarge" then 120.0
  else 30.0

/-- Per-item savings for a stopped EC2 instance (`instance` in the source;
`instance` is a Lean keyword): `ec2_pricing.get(instance.get('type',
't3.medium'), 30.0)`. -/
def ec2ItemSavings (inst : ResourceRecord) : ℚ :=
  ec2_pricing (inst.type.getD "t3.medium")

/-- `ebs_pricing.get(volume_type, 0.08)`: monthly price per GB by volume
type, with fallback 0.08. -/
def ebs_pricing (volume_type : String) : ℚ :=
  if volume_type = "gp3" then 0.08
  else if volume_type = "gp2" then 0.10
  else if volume_type = "io1" then 0.125
  else if volume_type = "st1" then 0.045
  else 0.08

/-- Per-item savings for an unattached EBS volume:
`volume.get('size', 100) * ebs_pricing.get(volume.get('type', 'gp3'), 0.08)`. -/
def ebsItemSavings (volume : ResourceRecord) : ℚ :=
  (volume.size.getD 100 : ℚ) * ebs_pricing (volume.type.getD "gp3")

/-- `rds_instance_pricing.get(instance_class, 60.0)`: monthly RDS instance
price by class, with fallback 60.0. -/
def rds_instance_pricing (instance_class : String) : ℚ :=
  if instance_class = "db.t3.micro" then 15.0
  else if instance_class = "db.t3.small" then 30.0
  else if instance_class = "db.t3.medium" then 60.0
  else if instance_class = "db.t3.large" then 120.0
  else 60.0

/-- Per-item savings for a stopped RDS database: instance-class price plus
`db.get('storage', 100) * 0.115`. -/
def rdsItemSavings (db : ResourceRecord) : ℚ :=
  rds_instance_pricing (db.instance_class.getD "db.t3.medium")
    + (db.storage.getD 100 : ℚ) * 0.115

/-- Python `round` to an integer: round half to even. -/
def roundHalfEven (q : ℚ) : ℤ :=
  if q - (Int.floor q : ℚ) < 1/2 then Int.floor q
  else if 1/2 < q - (Int.floor q : ℚ) then Int.floor q + 1
  else if Int.floor q % 2 = 0 then Int.floor q else Int.floor q + 1

/-- Python `round(q, 2)` on exact rationals. -/
def round2 (q : ℚ) : ℚ :=
  (roundHalfEven (100 * q) : ℚ) / 100

/-- `calculate_potential_savings`: sum of per-item savings over the five
categories (flat 3.65 per unassociated EIP and 18.0 per unused load
balancer), rounded to 2 decimal places. -/
def calculate_potential_savings (idle_resources : IdleResourceInventory) : ℚ :=
  round2 ((idle_resources.ec2_stopped.map ec2ItemSavings).sum
    + (idle_resources.ebs_unattached.map ebsItemSavings).sum
    + (idle_resources.eip_unassociated.length : ℚ) * 3.65
    + (idle_resources.rds_stopped.map rdsItemSavings).sum
    + (idle_resources.elb_unused.length : ℚ) * 18.0)

/-- A recommendation record: `{priority, category, title, impact, action}`. -/
structure Recommendation where
  priority : String
  category : String
  title : String
  impact : String
  action : String
deriving DecidableEq

/-- The service-cost breakdown handed to `generate_recommendations`:
`service_costs.get('services', {})` is an insertion-ordered mapping from
service name to monthly cost. -/
structure ServiceCostBreakdown where
  services : List (String × ℚ)
deriving DecidableEq

/-- Two-digit zero-padded decimal string for the fractional part. -/
def decimal2Digits (n : Nat) : String :=
  if n < 10 then "0" ++ toString n else toString n

/-- Python `f"{q:.2f}"` on exact rationals. -/
def fmt2 (q : ℚ) : String :=
  let c : ℤ := roundHalfEven (100 * q)
  let a := c.natAbs
  (if c < 0 then "-" else "") ++ toString (a / 100) ++ "." ++ decimal2Digits (a % 100)

/-- Python `f"{q}"` on a float that is an exact multiple of 0.01,
idealizing the binary float's shortest repr by the exact decimal with
trailing zeros stripped (and `.0` kept for whole numbers, as Python does). -/
def fmtFloat (q : ℚ) : String :=
  let c : ℤ := roundHalfEven (100 * q)
  let a := c.natAbs
  let sign := if c < 0 then "-" else ""
  let ip := toString (a / 100)
  let f := a % 100
  if f = 0 then sign ++ ip ++ ".0"
  else if f % 10 = 0 then sign ++ ip ++ "." ++ toString (f / 10)
  else sign ++ ip ++ "." ++ decimal2Digits f

/-- The HIGH-priority "Idle Resources" recommendation emitted when
`ec2_stopped` is non-empty (`n` = number of stopped instances). -/
def ec2Recommendation (n : Nat) : Recommendation :=
  { priority := "HIGH"
    category := "Idle Resources"
    title := "Terminate " ++ toString n ++ " stopped EC2 instances"
    impact := "~$" ++ toString (n * 30) ++ "/month"
    action := "Review and terminate unused instances or convert to reserved instances" }

/-- The MEDIUM-priority "Storage Optimization" recommendation emitted when
`ebs_unattached` is non-empty. -/
def ebsRecommendation (n : Nat) : Recommendation :=
  { priority := "MEDIUM"
    category := "Storage Optimization"
    title := "Delete " ++ toString n ++ " unattached EBS volumes"
    impact := "~$" ++ toString (n * 10) ++ "/month"
    action := "Create snapshots if needed, then delete volumes" }

/-- The LOW-priority "Network Optimization" recommendation emitted when
`eip_unassociated` is non-empty. -/
def eipRecommendation (n : Nat) : Recommendation :=
  { priority := "LOW"
    category := "Network Optimization"
    title := "Release " ++ toString n ++ " unassociated Elastic IPs"
    impact := "~$" ++ fmtFloat ((n : ℚ) * 3.65) ++ "/month"
    action := "Release unused Elastic IPs immediately" }

/-- The MEDIUM-priority "Cost Review" recommendation for one high-cost
service `(service, cost)`. -/
def costReviewRec (p : String × ℚ) : Recommendation :=
  { priority := "MEDIUM"
    category := "Cost Review"
    title := "Review " ++ p.1 ++ " spending ($" ++ fmt2 p.2 ++ "/month)"
    impact := "Variable"
    action := "Analyze " ++ p.1 ++ " usage patterns for optimization opportunities" }

/-- One step of Python's stable descending sort by cost: insert `x` into an
already-sorted list, before the first entry of strictly smaller cost (so
ties keep first-encountered order). -/
def insertDesc (x : String × ℚ) : List (String × ℚ) → List (String × ℚ)
  | [] => [x]
  | y :: ys => if y.2 ≤ x.2 then x :: y :: ys else y :: insertDesc x ys

/-- `sorted(service_costs.items(), key=lambda x: x[1], reverse=True)`:
stable descending sort by cost. -/
def sortByCostDesc : List (String × ℚ) → List (String × ℚ)
  | [] => []
  | x :: xs => insertDesc x (sortByCostDesc xs)

/-- `top_services`: the first 3 entries of the stable descending sort. -/
def topServices (service_costs : ServiceCostBreakdown) : List (String × ℚ) :=
  (sortByCostDesc service_costs.services).take 3

/-- The top-3 services whose cost passes the strict `cost > 100` filter:
exactly the services that receive a "Cost Review" recommendation. -/
def qualifyingServices (service_costs : ServiceCostBreakdown) :
    List (String × ℚ) :=
  (topServices service_costs).filter (fun p => 100 < p.2)

/-- The "Cost Review" block of `generate_recommendations`: one
recommendation per top-3 service whose cost is strictly above 100. -/
def serviceRecs (service_costs : ServiceCostBreakdown) : List Recommendation :=
  (topServices service_costs).filterMap
    (fun p => if 100 < p.2 then some (costReviewRec p) else none)

/-- `generate_recommendations`: the three idle-resource blocks (emitted only
when the corresponding category list is truthy, i.e. non-empty) followed by
the high-cost-service block, in source order. -/
def generate_recommendations (idle_resources : IdleResourceInventory)
    (service_costs : ServiceCostBreakdown) : List Recommendation :=
  (if idle_resources.ec2_stopped.isEmpty then []
    else [ec2Recommendation idle_resources.ec2_stopped.length])
  ++ (if idle_resources.ebs_unattached.isEmpty then []
    else [ebsRecommendation idle_resources.ebs_unattached.length])
  ++ (if idle_resources.eip_unassociated.isEmpty then []
    else [eipRecommendation idle_resources.eip_unassociated.length])
  ++ serviceRecs service_costs

/-- The full trend dictionary returned by `get_cost_trends` on the success
path. -/
structure CostTrend where
  current_period : ℚ
  previous_period : ℚ
  delta_absolute : ℚ
  delta_percent : ℚ
  trend : String
deriving DecidableEq

/-- The success-path body of `get_cost_trends`, given the current-period
total and the fetched previous-period total. -/
def trendOf (current_cost prev_cost : ℚ) : CostTrend :=
  let delta_absolute := current_cost - prev_cost
  let delta_percent := if 0 < prev_cost then delta_absolute / prev_cost * 100 else 0
  { current_period := round2 current_cost
    previous_period := round2 prev_cost
    delta_absolute := round2 delta_absolute
    delta_percent := round2 delta_percent
    trend := if 0 < delta_absolute then "increasing" else "decreasing" }

/-- The two possible return shapes of `get_cost_trends`: the full trend
dictionary, or the degraded partial dictionary
`{'current_period': ..., 'error': ...}` produced by the `except` branch. -/
inductive TrendResult where
  | ok : CostTrend → TrendResult
  | degraded : ℚ → String → TrendResult
deriving DecidableEq

/-- `get_cost_trends`: the upstream fetch of the previous-period total is
modelled as an `Except` argument; any upstream failure lands in the
`except` branch, which returns the rounded current-period cost together
with the fixed error indicator instead of raising. -/
def get_cost_trends (current_cost : ℚ) (prev_fetch : Except String ℚ) :
    TrendResult :=
  match prev_fetch with
  | .ok prev_cost => .ok (trendOf current_cost prev_cost)
  | .error _ => .degraded (round2 current_cost) "Unable to calculate trend data"

/-- The `summary` object of the report built in `lambda_handler`. -/
structure ReportSummary where
  total_cost : ℚ
  idle_resources_count : Nat
  potential_savings : ℚ
deriving DecidableEq

/-- The summary block of the report:
`idle_resources_count = sum(len(v) for v in idle_resources.values())`. -/
def build_summary (total_cost : ℚ) (idle_resources : IdleResourceInventory) :
    ReportSummary :=
  { total_cost := total_cost
    idle_resources_count := (idle_resources.values.map List.length).sum
    potential_savings := calculate_potential_savings idle_resources }

/-- The pure part of the report assembled in `lambda_handler` (timestamp,
date and raw cost data are pass-through values out of the core's scope). -/
structure Report where
  environment : String
  summary : ReportSummary
  idle_resources : IdleResourceInventory
  trends : TrendResult
  recommendations : List Recommendation
deriving DecidableEq

/-- Assembly of the report from the fetched inputs, as in `lambda_handler`
steps 4-5. -/
def build_report (environment : String) (total_cost : ℚ)
    (idle_resources : IdleResourceInventory) (trends : TrendResult)
    (service_costs : ServiceCostBreakdown) : Report :=
  { environment := environment
    summary := build_summary total_cost idle_resources
    idle_resources := idle_resources
    trends := trends
    recommendations := generate_recommendations idle_resources service_costs }

/-- A record with none of the pricing-relevant keys (an empty dictionary). -/
def emptyRecord : ResourceRecord := {}

/-- The inventory of the spec's estimator example. -/
def estimatorExampleInventory : IdleResourceInventory :=
  { ec2_stopped := [{ type := some "t3.medium" }]
    ebs_unattached := [{ size := some 100, type := some "gp3" }]
    eip_unassociated := [{}]
    rds_stopped := []
    elb_unused := [] }

/-- An inventory whose only idle resource is one stopped RDS database. -/
def rdsOnlyInventory : IdleResourceInventory :=
  { ec2_stopped := [], ebs_unattached := [], eip_unassociated := []
    rds_stopped := [emptyRecord], elb_unused := [] }

/-- An empty service-cost breakdown (no `services` entries). -/
def noServiceCosts : ServiceCostBreakdown := { services := [] }

/-- The service costs of the spec's recommendation example. -/
def exampleServiceCosts : ServiceCostBreakdown :=
  { services := [("EC2", 150), ("RDS", 80), ("S3", 20)] }

/-- The all-empty inventory. -/
def emptyInventory : IdleResourceInventory := ⟨[], [], [], [], []⟩

/-- An inventory whose records are all empty dictionaries, one per category. -/
def defaultsInventory : IdleResourceInventory :=
  ⟨[emptyRecord], [emptyRecord], [emptyRecord], [emptyRecord], [emptyRecord]⟩

/-- A two-element EC2 inventory, for the permutation witness. -/
def permExampleA : IdleResourceInventory :=
  ⟨[{ type := some "t3.micro" }, { type := some "t3.large" }], [], [], [], []⟩

/-- `permExampleA` with its `ec2_stopped` list permuted. -/
def permExampleB : IdleResourceInventory :=
  ⟨[{ type := some "t3.large" }, { type := some "t3.micro" }], [], [], [], []⟩

/-- A well-formed inventory with a single 100 GB unattached volume. -/
def singleVolumeInventory : IdleResourceInventory :=
  ⟨[], [{ size := some 100 }], [], [], []⟩

/-! ### Helper lemmas: rounding -/

lemma roundHalfEven_intCast (n : ℤ) : roundHalfEven (n : ℚ) = n := by
  unfold roundHalfEven
  norm_num

lemma floor_le_roundHalfEven (q : ℚ) : Int.floor q ≤ roundHalfEven q := by
  unfold roundHalfEven
  split_ifs <;> omega

lemma roundHalfEven_nonneg {q : ℚ} (h : 0 ≤ q) : 0 ≤ roundHalfEven q :=
  le_trans (Int.floor_nonneg.mpr h) (floor_le_roundHalfEven q)

lemma round2_nonneg {q : ℚ} (h : 0 ≤ q) : 0 ≤ round2 q := by
  unfold round2
  have h1 : (0:ℤ) ≤ roundHalfEven (100 * q) :=
    roundHalfEven_nonneg (by positivity)
  have h2 : (0:ℚ) ≤ (roundHalfEven (100 * q) : ℚ) := by exact_mod_cast h1
  exact div_nonneg h2 (by norm_num)

lemma round2_eq_div (q : ℚ) (n : ℤ) (h : 100 * q = (n : ℚ)) :
    round2 q = (n : ℚ) / 100 := by
  unfold round2
  rw [h, roundHalfEven_intCast]

lemma round2_zero : round2 0 = 0 := by
  rw [round2_eq_div 0 0 (by norm_num)]
  norm_num

lemma round2_pos {q : ℚ} (h : 9/200 ≤ q) : 0 < round2 q := by
  unfold round2
  have h4 : (4:ℤ) ≤ Int.floor (100 * q) := by
    apply Int.le_floor.mpr
    push_cast
    linarith
  have h5 : (4:ℤ) ≤ roundHalfEven (100 * q) :=
    le_trans h4 (floor_le_roundHalfEven _)
  have h6 : (4:ℚ) ≤ (roundHalfEven (100 * q) : ℚ) := by exact_mod_cast h5
  apply div_pos (by linarith) (by norm_num)

/-! ### Helper lemmas: pricing bounds -/

lemma ec2_pricing_ge (t : String) : 10 ≤ ec2_pricing t := by
  unfold ec2_pricing
  split_ifs <;> norm_num

lemma ebs_pricing_ge (t : String) : 9/200 ≤ ebs_pricing t := by
  unfold ebs_pricing
  split_ifs <;> norm_num

lemma rds_instance_pricing_ge (c : String) : 15 ≤ rds_instance_pricing c := by
  unfold rds_instance_pricing
  split_ifs <;> norm_num

lemma ec2ItemSavings_ge (r : ResourceRecord) : 10 ≤ ec2ItemSavings r :=
  ec2_pricing_ge _

lemma ebsItemSavings_ge (v : ResourceRecord)
    (hv : ∀ n, v.size = some n → 0 < n) : 9/200 ≤ ebsItemSavings v := by
  unfold ebsItemSavings
  have h1 : (1:ℚ) ≤ (v.size.getD 100 : ℚ) := by
    cases hs : v.size with
    | none => simp
    | some n =>
      have hn := hv n hs
      simp only [hs, Option.getD_some]
      exact_mod_cast hn
  have h2 := ebs_pricing_ge (v.type.getD "gp3")
  calc (9/200 : ℚ) = 1 * (9/200) := by norm_num
    _ ≤ (v.size.getD 100 : ℚ) * ebs_pricing (v.type.getD "gp3") :=
      mul_le_mul h1 h2 (by norm_num) (by linarith)

lemma rdsItemSavings_ge (r : ResourceRecord) : 15 ≤ rdsItemSavings r := by
  unfold rdsItemSavings
  have h1 := rds_instance_pricing_ge (r.instance_class.getD "db.t3.medium")
  have h2 : (0:ℚ) ≤ (r.storage.getD 100 : ℚ) * 0.115 := by positivity
  linarith

lemma sum_map_nonneg {α : Type} (l : List α) (f : α → ℚ)
    (h : ∀ x ∈ l, 0 ≤ f x) : 0 ≤ (l.map f).sum := by
  apply List.sum_nonneg
  intro x hx
  rw [List.mem_map] at hx
  obtain ⟨a, ha, rfl⟩ := hx
  exact h a ha

lemma le_sum_map_of_ne_nil {α : Type} (c : ℚ) (l : List α) (f : α → ℚ)
    (hne : l ≠ []) (hc : ∀ x ∈ l, c ≤ f x) (h0 : 0 ≤ c) :
    c ≤ (l.map f).sum := by
  obtain ⟨x, xs, rfl⟩ := List.exists_cons_of_ne_nil hne
  have hrest : 0 ≤ (xs.map f).sum := by
    apply sum_map_nonneg
    intro a ha
    exact le_trans h0 (hc a (List.mem_cons_of_mem x ha))
  have hx : c ≤ f x := hc x (List.mem_cons_self x xs)
  simp only [List.map_cons, List.sum_cons]
  linarith

/-! ### Helper lemmas: the stable descending sort -/

lemma mem_insertDesc {x y : String × ℚ} {l : List (String × ℚ)} :
    y ∈ insertDesc x l ↔ y = x ∨ y ∈ l := by
  induction l with
  | nil => simp [insertDesc]
  | cons z zs ih =>
    unfold insertDesc
    split_ifs with h
    · simp [List.mem_cons]
    · simp only [List.mem_cons, ih]
      tauto

lemma pairwise_insertDesc (x : String × ℚ) (l : List (String × ℚ))
    (hl : l.Pairwise (fun a b => b.2 ≤ a.2)) :
    (insertDesc x l).Pairwise (fun a b => b.2 ≤ a.2) := by
  induction l with
  | nil => simp [insertDesc]
  | cons y ys ih =>
    rw [List.pairwise_cons] at hl
    obtain ⟨hy, hys⟩ := hl
    unfold insertDesc
    split_ifs with h
    · rw [List.pairwise_cons]
      refine ⟨?_, List.pairwise_cons.mpr ⟨hy, hys⟩⟩
      intro b hb
      rcases List.mem_cons.mp hb with rfl | hb'
      · exact h
      · exact le_trans (hy b hb') h
    · rw [List.pairwise_cons]
      refine ⟨?_, ih hys⟩
      intro b hb
      rcases mem_insertDesc.mp hb with rfl | hb'
      · exact le_of_not_le h
      · exact hy b hb'

lemma sortByCostDesc_pairwise (l : List (String × ℚ)) :
    (sortByCostDesc l).Pairwise (fun a b => b.2 ≤ a.2) := by
  induction l with
  | nil => simp [sortByCostDesc]
  | cons x xs ih => exact pairwise_insertDesc x _ ih

lemma filter_insertDesc (x : String × ℚ) (l : List (String × ℚ)) (c : ℚ) :
    (insertDesc x l).filter (fun p => p.2 = c)
      = if x.2 = c then x :: l.filter (fun p => p.2 = c)
        else l.filter (fun p => p.2 = c) := by
  induction l with
  | nil => simp [insertDesc, List.filter_cons]
  | cons y ys ih =>
    by_cases h : y.2 ≤ x.2
    · simp only [insertDesc, if_pos h, List.filter_cons, decide_eq_true_eq]
    · have hlt : x.2 < y.2 := not_le.mp h
      simp only [insertDesc, if_neg h, List.filter_cons, decide_eq_true_eq, ih]
      split_ifs with h1 h2 h2 <;> first
        | rfl
        | (exfalso; apply absurd hlt; simp [h1, h2])

lemma sortByCostDesc_stable (l : List (String × ℚ)) (c : ℚ) :
    (sortByCostDesc l).filter (fun p => p.2 = c)
      = l.filter (fun p => p.2 = c) := by
  induction l with
  | nil => rfl
  | cons x xs ih =>
    simp only [sortByCostDesc, filter_insertDesc, ih, List.filter_cons,
      decide_eq_true_eq]

/-! ### Helper lemmas: the service-recommendation block -/

lemma filterMap_ite {α β : Type} (l : List α) (f : α → β) (p : α → Prop)
    [DecidablePred p] :
    (l.filterMap fun a => if p a then some (f a) else none)
      = (l.filter (fun a => p a)).map f := by
  induction l with
  | nil => rfl
  | cons a as ih =>
    simp only [List.filterMap_cons, List.filter_cons, decide_eq_true_eq]
    split_ifs with h <;> simp [ih]

lemma serviceRecs_eq (sc : ServiceCostBreakdown) :
    serviceRecs sc = (qualifyingServices sc).map costReviewRec := by
  unfold serviceRecs qualifyingServices
  exact filterMap_ite _ _ _

lemma serviceRecs_length_le (sc : ServiceCostBreakdown) :
    (serviceRecs sc).length ≤ 3 := by
  rw [serviceRecs_eq, List.length_map]
  have h1 : (qualifyingServices sc).length ≤ (topServices sc).length :=
    List.length_filter_le _ _
  have h2 : (topServices sc).length ≤ 3 := by
    unfold topServices
    simp [List.length_take_le]
  omega

lemma serviceRecs_category (sc : ServiceCostBreakdown) (r : Recommendation)
    (hr : r ∈ serviceRecs sc) : r.category = "Cost Review" := by
  rw [serviceRecs_eq, List.mem_map] at hr
  obtain ⟨p, hp, rfl⟩ := hr
  rfl

lemma countP_serviceRecs_costReview (sc : ServiceCostBreakdown) :
    (serviceRecs sc).countP (fun r => r.category = "Cost Review")
      = (serviceRecs sc).length := by
  apply List.countP_eq_length.mpr
  intro a ha
  simp [serviceRecs_category sc a ha]

lemma countP_serviceRecs_eq_zero (sc : ServiceCostBreakdown) (c : String)
    (h : c ≠ "Cost Review") :
    (serviceRecs sc).countP (fun r => r.category = c) = 0 := by
  apply List.countP_eq_zero.mpr
  intro a ha
  simp only [serviceRecs_category sc a ha, decide_eq_true_eq]
  exact fun hc => h hc.symm

lemma filter_serviceRecs_costReview (sc : ServiceCostBreakdown) :
    (serviceRecs sc).filter (fun r => r.category = "Cost Review")
      = serviceRecs sc := by
  apply List.filter_eq_self.mpr
  intro a ha
  simp [serviceRecs_category sc a ha]

lemma countP_serviceRecs_mem (sc : ServiceCostBreakdown) :
    (serviceRecs sc).countP
        (fun r => r.category = "Idle Resources"
          ∨ r.category = "Storage Optimization"
          ∨ r.category = "Network Optimization"
          ∨ r.category = "Cost Review")
      = (serviceRecs sc).length := by
  apply List.countP_eq_length.mpr
  intro a ha
  simp [serviceRecs_category sc a ha]

lemma isEmpty_eq_false_of_ne {α : Type} {l : List α} (h : l ≠ []) :
    l.isEmpty = false := by
  cases l with
  | nil => exact absurd rfl h
  | cons a as => rfl

/-! ### Claim theorems -/

/-- C5: `calculate_potential_savings` is invariant under permuting the
items within each category list of the inventory. -/
theorem calculate_potential_savings_perm_invariant
    (inv inv' : IdleResourceInventory)
    (h1 : inv.ec2_stopped.Perm inv'.ec2_stopped)
    (h2 : inv.ebs_unattached.Perm inv'.ebs_unattached)
    (h3 : inv.eip_unassociated.Perm inv'.eip_unassociated)
    (h4 : inv.rds_stopped.Perm inv'.rds_stopped)
    (h5 : inv.elb_unused.Perm inv'.elb_unused) :
    calculate_potential_savings inv = calculate_potential_savings inv' := by
  unfold calculate_potential_savings
  rw [(h1.map ec2ItemSavings).sum_eq, (h2.map ebsItemSavings).sum_eq,
    (h4.map rdsItemSavings).sum_eq, h3.length_eq, h5.length_eq]

/-- Witness for C5: the permutation invariance applied to a concrete
two-instance inventory with its `ec2_stopped` list swapped. -/
theorem calculate_potential_savings_perm_invariant_witness :
    permExampleA.ec2_stopped.Perm permExampleB.ec2_stopped
      ∧ calculate_potential_savings permExampleA
        = calculate_potential_savings permExampleB := by
  have hp : permExampleA.ec2_stopped.Perm permExampleB.ec2_stopped :=
    List.Perm.swap _ _ _
  exact ⟨hp, calculate_potential_savings_perm_invariant permExampleA permExampleB
    hp (List.Perm.refl _) (List.Perm.refl _) (List.Perm.refl _) (List.Perm.refl _)⟩

/-- C6: the trend label of the computed cost trend is `"increasing"`
exactly when the delta `current − prior` is strictly positive, and
`"decreasing"` otherwise; in particular a zero delta classifies as
`"decreasing"`. -/
theorem trend_label_iff (current_cost prev_cost : ℚ) :
    ((trendOf current_cost prev_cost).trend = "increasing"
        ↔ 0 < current_cost - prev_cost)
    ∧ ((trendOf current_cost prev_cost).trend = "decreasing"
        ↔ ¬ 0 < current_cost - prev_cost)
    ∧ (trendOf prev_cost prev_cost).trend = "decreasing" := by
  unfold trendOf
  refine ⟨?_, ?_, ?_⟩
  · split_ifs with h <;> simp [h]
  · split_ifs with h <;> simp [h]
  · simp

/-- C7: with a prior-period total of 0, the trend computation takes the
guarded branch and yields `delta_percent = 0`; the division by the prior
total is never the evaluated branch when the prior is 0. -/
theorem delta_percent_zero_prior (current_cost : ℚ) :
    (trendOf current_cost 0).delta_percent = 0 := by
  show round2 (if (0:ℚ) < 0 then (current_cost - 0) / 0 * 100 else 0) = 0
  rw [if_neg (lt_irrefl 0)]
  exact round2_zero

/-- C8: when the prior-period total cannot be obtained, `get_cost_trends`
does not raise: it returns the degraded partial result carrying the
current-period cost rounded to 2 decimal places and the fixed
unavailability indicator, instead of the full trend dictionary. -/
theorem get_cost_trends_degrades (current_cost : ℚ) (msg : String) :
    get_cost_trends current_cost (Except.error msg)
      = TrendResult.degraded (round2 current_cost)
          "Unable to calculate trend data" := rfl

/-- C9: the assembled report's summary `idle_resources_count` equals the
sum of the lengths of the five per-category lists of the inventory. -/
theorem report_idle_resources_count (environment : String) (total_cost : ℚ)
    (inv : IdleResourceInventory) (tr : TrendResult)
    (sc : ServiceCostBreakdown) :
    (build_report environment total_cost inv tr sc).summary.idle_resources_count
      = inv.ec2_stopped.length + inv.ebs_unattached.length
        + inv.eip_unassociated.length + inv.rds_stopped.length
        + inv.elb_unused.length := by
  simp only [build_report, build_summary, IdleResourceInventory.values,
    List.map_cons, List.map_nil, List.sum_cons, List.sum_nil]
  omega

/-- C3: on the spec's example inventory (one stopped t3.medium instance,
one 100 GB gp3 volume, one unassociated EIP), the estimator returns
30.0 + 100 × 0.08 + 3.65 = 41.65. -/
theorem estimator_example_result :
    calculate_potential_savings estimatorExampleInventory = 41.65 := by
  have h : calculate_potential_savings estimatorExampleInventory
      = round2 41.65 := by
    simp [calculate_potential_savings, estimatorExampleInventory,
      ec2ItemSavings, ebsItemSavings, ec2_pricing, ebs_pricing]
    norm_num
  rw [h, round2_eq_div 41.65 4165 (by norm_num)]
  norm_num

/-- C10: records missing pricing attributes are priced by silent defaults
(t3.medium at 30.0 for EC2, 100 GB at the gp3 rate 0.08 for EBS,
db.t3.medium at 60.0 plus 100 GB storage for RDS), and an inventory of
empty-dictionary records yields a positive estimate, not an error. -/
theorem defaults_are_substituted :
    ec2ItemSavings emptyRecord = 30.0
    ∧ ebsItemSavings emptyRecord = 100 * 0.08
    ∧ rdsItemSavings emptyRecord = 60.0 + 100 * 0.115
    ∧ 0 < calculate_potential_savings defaultsInventory := by
  refine ⟨?_, ?_, ?_, ?_⟩
  · simp [ec2ItemSavings, ec2_pricing, emptyRecord]
  · simp [ebsItemSavings, ebs_pricing, emptyRecord]
  · simp [rdsItemSavings, rds_instance_pricing, emptyRecord]
  · have h : calculate_potential_savings defaultsInventory
        = round2 131.15 := by
      simp [calculate_potential_savings, defaultsInventory, emptyRecord,
        ec2ItemSavings, ebsItemSavings, rdsItemSavings, ec2_pricing,
        ebs_pricing, rds_instance_pricing]
      norm_num
    rw [h]
    exact round2_pos (by norm_num)

/-- C4: for every well-formed inventory (declared EBS sizes and RDS
storage sizes positive), the estimate is non-negative, and it is zero
exactly when all five category lists are empty. -/
theorem calculate_potential_savings_nonneg_zero_iff
    (inv : IdleResourceInventory)
    (hebs : ∀ v ∈ inv.ebs_unattached, ∀ n, v.size = some n → 0 < n)
    (hrds : ∀ r ∈ inv.rds_stopped, ∀ n, r.storage = some n → 0 < n) :
    0 ≤ calculate_potential_savings inv
      ∧ (calculate_potential_savings inv = 0
          ↔ inv.ec2_stopped = [] ∧ inv.ebs_unattached = []
            ∧ inv.eip_unassociated = [] ∧ inv.rds_stopped = []
            ∧ inv.elb_unused = []) := by
  have hec2 : 0 ≤ (inv.ec2_stopped.map ec2ItemSavings).sum :=
    sum_map_nonneg _ _ (fun x _ => le_trans (by norm_num) (ec2ItemSavings_ge x))
  have hebs0 : 0 ≤ (inv.ebs_unattached.map ebsItemSavings).sum :=
    sum_map_nonneg _ _
      (fun x hx => le_trans (by norm_num) (ebsItemSavings_ge x (hebs x hx)))
  have hrds0 : 0 ≤ (inv.rds_stopped.map rdsItemSavings).sum :=
    sum_map_nonneg _ _ (fun x _ => le_trans (by norm_num) (rdsItemSavings_ge x))
  have heip0 : (0:ℚ) ≤ (inv.eip_unassociated.length : ℚ) * 3.65 := by positivity
  have helb0 : (0:ℚ) ≤ (inv.elb_unused.length : ℚ) * 18.0 := by positivity
  have hcalc : calculate_potential_savings inv
      = round2 ((inv.ec2_stopped.map ec2ItemSavings).sum
        + (inv.ebs_unattached.map ebsItemSavings).sum
        + (inv.eip_unassociated.length : ℚ) * 3.65
        + (inv.rds_stopped.map rdsItemSavings).sum
        + (inv.elb_unused.length : ℚ) * 18.0) := rfl
  have bound : ∀ h45 : 9/200 ≤ (inv.ec2_stopped.map ec2ItemSavings).sum
        + (inv.ebs_unattached.map ebsItemSavings).sum
        + (inv.eip_unassociated.length : ℚ) * 3.65
        + (inv.rds_stopped.map rdsItemSavings).sum
        + (inv.elb_unused.length : ℚ) * 18.0,
      calculate_potential_savings inv ≠ 0 := by
    intro h45
    rw [hcalc]
    exact ne_of_gt (round2_pos h45)
  refine ⟨by rw [hcalc]; exact round2_nonneg (by linarith), ?_, ?_⟩
  · intro h0
    refine ⟨?_, ?_, ?_, ?_, ?_⟩
    · by_contra hne
      have hx : (9:ℚ)/200 ≤ (inv.ec2_stopped.map ec2ItemSavings).sum :=
        le_sum_map_of_ne_nil _ _ _ hne
          (fun x _ => le_trans (by norm_num) (ec2ItemSavings_ge x)) (by norm_num)
      exact bound (by linarith) h0
    · by_contra hne
      have hx : (9:ℚ)/200 ≤ (inv.ebs_unattached.map ebsItemSavings).sum :=
        le_sum_map_of_ne_nil _ _ _ hne
          (fun x hx => ebsItemSavings_ge x (hebs x hx)) (by norm_num)
      exact bound (by linarith) h0
    · by_contra hne
      have hlen : 1 ≤ inv.eip_unassociated.length := List.length_pos.mpr hne
      have hlenq : (1:ℚ) ≤ (inv.eip_unassociated.length : ℚ) := by
        exact_mod_cast hlen
      have hx : (3.65:ℚ) ≤ (inv.eip_unassociated.length : ℚ) * 3.65 :=
        le_mul_of_one_le_left (by norm_num) hlenq
      exact bound (by linarith) h0
    · by_contra hne
      have hx : (9:ℚ)/200 ≤ (inv.rds_stopped.map rdsItemSavings).sum :=
        le_sum_map_of_ne_nil _ _ _ hne
          (fun x _ => le_trans (by norm_num) (rdsItemSavings_ge x)) (by norm_num)
      exact bound (by linarith) h0
    · by_contra hne
      have hlen : 1 ≤ inv.elb_unused.length := List.length_pos.mpr hne
      have hlenq : (1:ℚ) ≤ (inv.elb_unused.length : ℚ) := by
        exact_mod_cast hlen
      have hx : (18.0:ℚ) ≤ (inv.elb_unused.length : ℚ) * 18.0 :=
        le_mul_of_one_le_left (by norm_num) hlenq
      exact bound (by linarith) h0
  · rintro ⟨e1, e2, e3, e4, e5⟩
    rw [hcalc, e1, e2, e3, e4, e5]
    simpa using round2_zero

/-- Witness for C4: the non-negativity and zero-iff-empty property applied
to the concrete single-volume inventory, whose one declared size is the
positive integer 100. -/
theorem calculate_potential_savings_nonneg_zero_iff_witness :
    (∀ v ∈ singleVolumeInventory.ebs_unattached, ∀ n, v.size = some n → 0 < n)
    ∧ (∀ r ∈ singleVolumeInventory.rds_stopped, ∀ n, r.storage = some n → 0 < n)
    ∧ 0 ≤ calculate_potential_savings singleVolumeInventory
    ∧ (calculate_potential_savings singleVolumeInventory = 0
        ↔ singleVolumeInventory.ec2_stopped = []
          ∧ singleVolumeInventory.ebs_unattached = []
          ∧ singleVolumeInventory.eip_unassociated = []
          ∧ singleVolumeInventory.rds_stopped = []
          ∧ singleVolumeInventory.elb_unused = []) := by
  have hebs : ∀ v ∈ singleVolumeInventory.ebs_unattached,
      ∀ n, v.size = some n → 0 < n := by
    intro v hv n hn
    simp only [singleVolumeInventory, List.mem_singleton] at hv
    subst hv
    simp only [Option.some.injEq] at hn
    omega
  have hrds : ∀ r ∈ singleVolumeInventory.rds_stopped,
      ∀ n, r.storage = some n → 0 < n := by
    intro r hr
    simp [singleVolumeInventory] at hr
  obtain ⟨ha, hb⟩ :=
    calculate_potential_savings_nonneg_zero_iff singleVolumeInventory hebs hrds
  exact ⟨hebs, hrds, ha, hb⟩

/-- C1 counterexample: an inventory whose only non-empty fixed category is
`rds_stopped` yields no recommendation at all, refuting "exactly one
recommendation per non-empty fixed category". -/
theorem rds_only_yields_no_recommendation :
    rdsOnlyInventory.rds_stopped ≠ []
      ∧ generate_recommendations rdsOnlyInventory noServiceCosts = [] := by
  constructor
  · simp [rdsOnlyInventory]
  · simp [generate_recommendations, rdsOnlyInventory, noServiceCosts,
      serviceRecs, topServices, sortByCostDesc]

/-- C1 (amended): `generate_recommendations` never emits a recommendation
for an empty category; it emits exactly one recommendation per non-empty
category among `ec2_stopped`, `ebs_unattached` and `eip_unassociated`,
none for `rds_stopped` or `elb_unused` (every emitted recommendation falls
in one of the three fixed categories or "Cost Review"), plus at most 3
service-cost recommendations. -/
theorem generate_recommendations_category_counts
    (inv : IdleResourceInventory) (sc : ServiceCostBreakdown) :
    ((generate_recommendations inv sc).countP
        (fun r => r.category = "Idle Resources")
      = if inv.ec2_stopped = [] then 0 else 1)
    ∧ ((generate_recommendations inv sc).countP
        (fun r => r.category = "Storage Optimization")
      = if inv.ebs_unattached = [] then 0 else 1)
    ∧ ((generate_recommendations inv sc).countP
        (fun r => r.category = "Network Optimization")
      = if inv.eip_unassociated = [] then 0 else 1)
    ∧ ((generate_recommendations inv sc).countP
        (fun r => r.category = "Cost Review") ≤ 3)
    ∧ ((generate_recommendations inv sc).countP
        (fun r => r.category = "Idle Resources"
          ∨ r.category = "Storage Optimization"
          ∨ r.category = "Network Optimization"
          ∨ r.category = "Cost Review")
      = (generate_recommendations inv sc).length) := by
  have hlen := serviceRecs_length_le sc
  by_cases h1 : inv.ec2_stopped = [] <;> by_cases h2 : inv.ebs_unattached = []
    <;> by_cases h3 : inv.eip_unassociated = [] <;>
    simp [generate_recommendations, h1, h2, h3, isEmpty_eq_false_of_ne,
      List.countP_append, List.countP_cons, List.length_append,
      ec2Recommendation, ebsRecommendation, eipRecommendation,
      countP_serviceRecs_costReview, countP_serviceRecs_eq_zero,
      countP_serviceRecs_mem, hlen]
    <;> exact fun a ha => Or.inr (Or.inr (Or.inr (serviceRecs_category sc a ha)))

/-- C2: the "Cost Review" recommendations are exactly one MEDIUM-priority
recommendation per top-3 service (by stable descending cost sort) whose
cost is strictly above 100, emitted in descending-cost order; services at
or below 100 yield none; the sort is stable (entries of any given cost
keep their first-encountered order); and on the example
`{EC2:150, RDS:80, S3:20}` with an all-empty inventory the output is
exactly one Cost Review recommendation, for EC2. -/
theorem cost_review_recommendations_spec
    (inv : IdleResourceInventory) (sc : ServiceCostBreakdown)
    (c : ℚ) (l : List (String × ℚ)) :
    ((generate_recommendations inv sc).filter
        (fun r => r.category = "Cost Review")
      = (qualifyingServices sc).map costReviewRec)
    ∧ ((qualifyingServices sc).countP (fun p => p.2 ≤ 100) = 0)
    ∧ (qualifyingServices sc).Pairwise (fun a b => b.2 ≤ a.2)
    ∧ (((qualifyingServices sc).map costReviewRec).countP
        (fun r => r.priority = "MEDIUM")
      = (qualifyingServices sc).length)
    ∧ ((sortByCostDesc l).filter (fun p => p.2 = c)
      = l.filter (fun p => p.2 = c))
    ∧ generate_recommendations emptyInventory exampleServiceCosts
      = [costReviewRec ("EC2", 150)] := by
  refine ⟨?_, ?_, ?_, ?_, sortByCostDesc_stable l c, ?_⟩
  · have hfix : (generate_recommendations inv sc).filter
        (fun r => r.category = "Cost Review")
        = (serviceRecs sc).filter (fun r => r.category = "Cost Review") := by
      by_cases h1 : inv.ec2_stopped = [] <;>
        by_cases h2 : inv.ebs_unattached = [] <;>
        by_cases h3 : inv.eip_unassociated = [] <;>
        simp [generate_recommendations, h1, h2, h3, isEmpty_eq_false_of_ne,
          List.filter_append, List.filter_cons,
          ec2Recommendation, ebsRecommendation, eipRecommendation]
    rw [hfix, filter_serviceRecs_costReview, serviceRecs_eq]
  · apply List.countP_eq_zero.mpr
    intro p hp
    unfold qualifyingServices at hp
    rw [List.mem_filter, decide_eq_true_eq] at hp
    simp only [decide_eq_true_eq, not_le]
    exact hp.2
  · exact ((sortByCostDesc_pairwise sc.services).sublist
      (List.take_sublist 3 _)).filter _
  · rw [← List.length_map (qualifyingServices sc) costReviewRec]
    apply List.countP_eq_length.mpr
    intro r hr
    rw [List.mem_map] at hr
    obtain ⟨p, hp, rfl⟩ := hr
    simp [costReviewRec]
  · norm_num [generate_recommendations, emptyInventory, exampleServiceCosts,
      serviceRecs, topServices, sortByCostDesc, insertDesc,
      List.filterMap_cons, List.filterMap_nil]

end CostOptimizer
